import Mathlib

/-!
Verification of the resumable-transfer engine of sentinelDL.py
(class SciHubClient: download, renew; module helpers message / isTTY;
the rate/ETA computation inside the stream loop).

Byte strings are lists of naturals.  The remote server is modelled as the
full content of the target; it honours byte ranges: a request whose
effective headers carry the entry Range: bytes=k- receives the body
content.drop k and declares that body's length as Content-Length.
The requests library merges the per-request header dict over the session
header dict, so a Range entry sitting in the session is part of every
request that does not override it; the code never overrides or removes it
(get_token, which replaces the whole session, is the only thing that drops
it).  Network nondeterminism (connection failures, mid-stream errors,
truncation) is supplied by explicit oracle parameters.
-/

namespace SentinelDL

/-- Python exceptions that can escape a download call in the model:
FileNotFoundError from os.path.getsize on a missing file, a requests
error escaping the bare reconnection inside the except-handler, and the
model-internal fuel marker (proved unreachable below). -/
inductive Err
  | fileNotFound
  | netError
  | fuelOut
deriving DecidableEq

/-- Result of one download call: a returned value (the code returns only
the ints 0 and 1) or an escaping Python exception. -/
inductive DLRes
  | ret (v : Nat)
  | exc (e : Err)
deriving DecidableEq

/-- Network behaviour of one iteration of the while-loop at
sentinelDL.py:174.  ok: iter_content delivers the whole remaining body and
ends cleanly.  err delivered rOk: iter_content raises after yielding
delivered bytes; rOk tells whether the bare session.get reconnection at
line 210 inside the except-handler succeeds. -/
inductive Ev
  | ok
  | err (delivered : Nat) (rOk : Bool)
deriving DecidableEq

/-- The reconnection outcome carried by an event (ok events carry a
successful reconnection by convention; it is only consulted on the
StreamConsumedError path). -/
def evROk : Ev → Bool
  | .ok => true
  | .err _ r => r

/-- State of one download call, including ghost/trace fields.
dlSize is DLsize (line 155, Content-Length of the initial response);
file is the destination file (none = does not exist);
conn is the unread body of the currently open response;
consumed records that iter_content already ran on that response
(a second run raises StreamConsumedError);
sessRange is the Range entry of self.session.headers (offset k of
bytes=k-), none if absent;
tryouts is the retry counter.  Ghost fields: initRange = Range entry
effective on the initial request (line 148); resumeRange = offset of the
range request issued by the pre-existing-file branch (lines 163-171);
retryRanges = offsets of the reconnections issued by the except-handler;
closedNoBody = DLf.close() ran at line 159 before any body read;
alreadyBranch = the call returned through lines 160-162;
bodyBytesRead = total body bytes consumed from the network;
streamReads = number of iter_content runs on a fresh response;
sleeps = number of time.sleep(30) calls; maxSize = largest on-disk size
the file ever had during the call. -/
structure St where
  dlSize : Nat
  file : Option (List Nat)
  conn : List Nat
  consumed : Bool
  sessRange : Option Nat
  tryouts : Nat
  initRange : Option Nat
  resumeRange : Option Nat
  retryRanges : List Nat
  closedNoBody : Bool
  alreadyBranch : Bool
  bodyBytesRead : Nat
  streamReads : Nat
  sleeps : Nat
  maxSize : Nat
deriving DecidableEq

/-- os.path.getsize of the destination (0 when absent; the call sites that
would raise on an absent file are modelled explicitly). -/
def fileSize : Option (List Nat) → Nat
  | none => 0
  | some f => f.length

/-- The chunk loop at lines 179-183: each chunk is written with
open(DLname, 'ab') (append, creating the file); zero chunks never touch
the file. -/
def fileAppend : Option (List Nat) → List Nat → Option (List Nat)
  | f, [] => f
  | f, d => some (f.getD [] ++ d)

/-- Append delivered bytes and update the ghost counters. -/
def writeBytes (st : St) (d : List Nat) : St :=
  let f := fileAppend st.file d
  { st with
      file := f
      bodyBytesRead := st.bodyBytesRead + d.length
      maxSize := max st.maxSize (fileSize f) }

/-- The except-handler at lines 203-211: increment tryouts, sleep 30 s,
renew, read the current on-disk size with os.path.getsize (raises
FileNotFoundError if the file was never created), put Range: bytes=fsize-
into the session headers, and reopen the connection with a bare
session.get: if that get raises, the exception escapes the download call.
A renewal here would replace the session, but the Range entry is written
after the renew, so renewals inside the handler have no observable effect
in this model. -/
def handler (content : List Nat) (st : St) (rOk : Bool) : Sum St (St × DLRes) :=
  let st1 := { st with tryouts := st.tryouts + 1, sleeps := st.sleeps + 1 }
  match st1.file with
  | none => .inr (st1, .exc .fileNotFound)
  | some f =>
    let st2 := { st1 with
        sessRange := some f.length
        retryRanges := st1.retryRanges ++ [f.length] }
    if rOk then
      .inl { st2 with conn := content.drop f.length, consumed := false }
    else
      .inr (st2, .exc .netError)

/-- One iteration of the while-loop body (lines 175-211).  On an already
consumed response, iter_content raises StreamConsumedError at once and the
handler runs; on a fresh response the event decides whether the stream
ends cleanly after the full body or raises after a prefix. -/
def step (content : List Nat) (st : St) (e : Ev) : Sum St (St × DLRes) :=
  if st.consumed then
    handler content st (evROk e)
  else
    match e with
    | .ok =>
      let st1 := writeBytes st st.conn
      .inl { st1 with consumed := true, streamReads := st1.streamReads + 1 }
    | .err d rOk =>
      let st1 := writeBytes st (st.conn.take d)
      handler content { st1 with streamReads := st1.streamReads + 1 } rOk

/-- The while-condition at line 174:
tryouts < 5 and (not os.path.exists(DLname) or os.path.getsize(DLname) < DLsize). -/
def loopCond (st : St) : Bool :=
  decide (st.tryouts < 5) && (st.file.isNone || decide (fileSize st.file < st.dlSize))

/-- Lines 212-216 after the loop: os.path.getsize raises on a missing
file; otherwise return 1 when the on-disk size equals DLsize, else log
and return 0. -/
def exitCheck (st : St) : St × DLRes :=
  match st.file with
  | none => (st, .exc .fileNotFound)
  | some f => if f.length = st.dlSize then (st, .ret 1) else (st, .ret 0)

/-- The while-loop, with fuel.  Each iteration consumes one oracle event
(an exhausted oracle defaults to clean full delivery).  Fuel 12 is proved
sufficient below (loop_no_fuelOut). -/
def loop (content : List Nat) : Nat → List Ev → St → St × DLRes
  | 0, _, st => (st, .exc .fuelOut)
  | fuel + 1, evs, st =>
    if loopCond st then
      match step content st (evs.headD .ok) with
      | .inl st2 => loop content fuel evs.tail st2
      | .inr out => out
    else exitCheck st

/-- Body returned by the server for a request whose effective headers
carry the given Range entry. -/
def applyRange : Option Nat → List Nat → List Nat
  | none, c => c
  | some k, c => c.drop k

/-- The state entering the while-loop after the resume branch
(lines 163-171): ir is the Range entry effective on the initial request. -/
def resumeSt (content f : List Nat) (ir : Option Nat) : St where
  dlSize := (applyRange ir content).length
  file := some f
  conn := content.drop f.length
  consumed := false
  sessRange := some f.length
  tryouts := 0
  initRange := ir
  resumeRange := some f.length
  retryRanges := []
  closedNoBody := true
  alreadyBranch := false
  bodyBytesRead := 0
  streamReads := 0
  sleeps := 0
  maxSize := f.length

/-- The state entering the while-loop when no destination file
pre-exists. -/
def nofileSt (content : List Nat) (ir : Option Nat) : St where
  dlSize := (applyRange ir content).length
  file := none
  conn := applyRange ir content
  consumed := false
  sessRange := ir
  tryouts := 0
  initRange := ir
  resumeRange := none
  retryRanges := []
  closedNoBody := false
  alreadyBranch := false
  bodyBytesRead := 0
  streamReads := 0
  sleeps := 0
  maxSize := 0

/-- SciHubClient.download (lines 143-216).
content: the target's full remote content.
file0: the pre-existing destination file.
sessRange0: Range entry of the shared session headers when the call
starts (stale state possibly left by an earlier call).
renewAtStart: whether the renew at line 147 actually refreshes the token
(get_token replaces the session, dropping any Range entry).
openOk / resumeOpenOk: whether the initial request (line 148) and the
resume request (line 167) succeed; their failures are caught and the call
returns 0.
evs: network oracle for the stream loop. -/
def download (content : List Nat) (file0 : Option (List Nat))
    (sessRange0 : Option Nat) (renewAtStart openOk resumeOpenOk : Bool)
    (evs : List Ev) : St × DLRes :=
  let sess1 : Option Nat := if renewAtStart then none else sessRange0
  let body0 := applyRange sess1 content
  let st0 : St := {
    dlSize := body0.length
    file := file0
    conn := []
    consumed := false
    sessRange := sess1
    tryouts := 0
    initRange := sess1
    resumeRange := none
    retryRanges := []
    closedNoBody := false
    alreadyBranch := false
    bodyBytesRead := 0
    streamReads := 0
    sleeps := 0
    maxSize := fileSize file0 }
  if !openOk then (st0, .ret 0)
  else
    match file0 with
    | some f =>
      let st1 := { st0 with closedNoBody := true }
      if f.length = body0.length then
        ({ st1 with alreadyBranch := true }, .ret 1)
      else
        let st2 := { st1 with
            sessRange := some f.length
            resumeRange := some f.length }
        if !resumeOpenOk then (st2, .ret 0)
        else loop content 12 evs { st2 with conn := content.drop f.length }
    | none => loop content 12 evs { st0 with conn := body0 }

/-- The state carried out of a step, whether the loop continues or the
call ends. -/
def outSt : Sum St (St × DLRes) → St
  | .inl s => s
  | .inr (s, _) => s

/-- Termination measure of the while-loop: tryouts grows on every
exception path and a clean stream run can only be followed by the
StreamConsumedError path. -/
def mSt (st : St) : Nat :=
  2 * (5 - st.tryouts) + (if st.consumed then 0 else 1)

/-- Size invariant threaded through the loop: the declared length and the
on-disk size never pass the remote content's length, the unread body fits
in the remaining space, and so does the high-water mark. -/
def SizeInv (content : List Nat) (st : St) : Prop :=
  st.dlSize ≤ content.length ∧ fileSize st.file ≤ content.length ∧
    (st.consumed = false → fileSize st.file + st.conn.length ≤ content.length) ∧
    st.maxSize ≤ content.length

/-- The part of the size invariant that still holds of a state carried out
of the loop by an escaping exception. -/
def SizeBound (content : List Nat) (st : St) : Prop :=
  st.dlSize ≤ content.length ∧ fileSize st.file ≤ content.length ∧
    st.maxSize ≤ content.length

/-- The renew property at lines 118-125: refresh the token iff the
current utc time is strictly later than the token's issue time plus
600 seconds; the token's own validity window is never consulted.
Times are seconds as integers. -/
def renew (now tokentime : Int) : Bool :=
  decide (now > tokentime + 600)

/-- The reported ETA: either the literal sentinel string given at
line 195 or a numeric value in seconds (formatting at lines 191-192 is
not modelled). -/
inductive EtaV
  | na
  | secs (q : ℚ)
deriving DecidableEq

/-- Lines 185-195: the per-chunk rate and ETA computation.  dataLen is
len(data) for the chunk just written, dlt and dlstep the measured elapsed
times (floats modelled as rationals); Python treats a float as falsy
exactly when it is zero, so the guard at line 188 takes the else-branch
iff one of the two is zero. -/
def rateEta (dataLen dlSize fsize : Nat) (dlt dlstep : ℚ) : ℚ × EtaV :=
  if dlt ≠ 0 ∧ dlstep ≠ 0 then
    let dlrate : ℚ := ((dataLen : ℚ) / 1048576) / dlstep
    (dlrate, .secs (((dlSize : ℚ) - (fsize : ℚ)) / (dlrate * 1048576)))
  else (0, .na)

/-- Python s[i:] on a list of characters, exact for every integer i. -/
def pySliceFrom (s : List Char) (i : Int) : List Char :=
  if i < 0 then s.drop (((s.length : Int) + i).toNat) else s.drop i.toNat

/-- The escape-code wrapper built at line 98:
"\x1b7\x1b[%d;%df\033[2K%s\x1b8" % (rows + 100, 0, inner). -/
def escWrap (rows : Nat) (inner : List Char) : List Char :=
  ['\x1b', '7', '\x1b', '['] ++ (toString (rows + 100)).data ++
    [';', '0', 'f', '\x1b', '[', '2', 'K'] ++ inner ++ ['\x1b', '8']

/-- message (lines 88-100) together with isTTY (lines 82-86).  isTTY
tests os.isatty(sys.stdin.fileno()), i.e. standard input; when it is
false message returns before writing anything.  sttySize is the result of
the stty size probe (none = the subprocess call failed, defaulting rows
to the x parameter and columns to 80).  The value some out is the string
written to sys.stderr; none means nothing is written. -/
def message (stdinTTY : Bool) (sttySize : Option (Nat × Nat))
    (msg : List Char) (newline : Bool) (x : Nat) : Option (List Char) :=
  if stdinTTY = false then none
  else
    let rc := sttySize.getD (x, 80)
    let columns := rc.snd
    let m :=
      if newline = false then
        escWrap rc.fst (pySliceFrom msg (1 - (columns : Int)))
      else msg
    some (pySliceFrom m (1 - (columns : Int)))

theorem fileSize_fileAppend (f : Option (List Nat)) (d : List Nat) :
    fileSize (fileAppend f d) = fileSize f + d.length := by
  cases d with
  | nil => simp [fileAppend]
  | cons a l => cases f <;> simp [fileAppend, fileSize]

theorem fileAppend_getD (f : Option (List Nat)) (d : List Nat) :
    (fileAppend f d).getD [] = f.getD [] ++ d := by
  cases d with
  | nil => simp [fileAppend]
  | cons a l => cases f <;> simp [fileAppend]

theorem fileAppend_isSome (f : Option (List Nat)) (d : List Nat)
    (h : f.isSome = true) : (fileAppend f d).isSome = true := by
  cases d with
  | nil => simpa [fileAppend] using h
  | cons a l => cases f <;> simp [fileAppend]

theorem exitCheck_fst (st : St) : (exitCheck st).1 = st := by
  unfold exitCheck
  cases st.file with
  | none => rfl
  | some f => by_cases h : f.length = st.dlSize <;> simp [h]

theorem exitCheck_snd (st : St) :
    (exitCheck st).2 = .ret 0 ∨ (exitCheck st).2 = .ret 1 ∨
      (exitCheck st).2 = .exc .fileNotFound := by
  unfold exitCheck
  cases st.file with
  | none => simp
  | some f => by_cases h : f.length = st.dlSize <;> simp [h]

theorem loopCond_tryouts {st : St} (h : loopCond st = true) : st.tryouts < 5 := by
  unfold loopCond at h
  rw [Bool.and_eq_true] at h
  exact of_decide_eq_true h.1

/-- Field bookkeeping of a successful except-handler run. -/
theorem handler_inl_fields {content : List Nat} {st : St} {rOk : Bool} {st2 : St}
    (h : handler content st rOk = .inl st2) :
    st2.tryouts = st.tryouts + 1 ∧ st2.consumed = false ∧ st2.file = st.file ∧
      st2.dlSize = st.dlSize ∧ (st2.sessRange ≠ none) ∧
      st2.resumeRange = st.resumeRange ∧ st2.initRange = st.initRange ∧
      st2.streamReads = st.streamReads ∧ st2.sleeps = st.sleeps + 1 ∧
      st2.maxSize = st.maxSize ∧ st2.bodyBytesRead = st.bodyBytesRead ∧
      ∃ f, st.file = some f ∧ st2.conn = content.drop f.length ∧
        st2.retryRanges = st.retryRanges ++ [f.length] := by
  unfold handler at h
  cases hf : st.file with
  | none => simp [hf] at h
  | some f =>
    simp only [hf] at h
    by_cases hr : rOk = true
    · rw [if_pos hr] at h
      cases h
      refine ⟨rfl, rfl, rfl, rfl, by simp, rfl, rfl, rfl, rfl, rfl, rfl, f, rfl, rfl, rfl⟩
    · rw [if_neg hr] at h
      cases h

/-- A failing except-handler run carries the state out unchanged except
for the counters (and possibly the freshly written Range entry). -/
theorem handler_inr_fields {content : List Nat} {st : St} {rOk : Bool}
    {st2 : St} {r : DLRes}
    (h : handler content st rOk = .inr (st2, r)) :
    (r = .exc .fileNotFound ∨ r = .exc .netError) ∧ st2.file = st.file ∧
      st2.dlSize = st.dlSize ∧ st2.resumeRange = st.resumeRange ∧
      st2.initRange = st.initRange ∧ st2.maxSize = st.maxSize ∧
      st2.conn = st.conn ∧ st2.consumed = st.consumed ∧
      (st2.sessRange = st.sessRange ∨ st2.sessRange ≠ none) ∧
      (st2.retryRanges = st.retryRanges ∨ st2.sessRange ≠ none) := by
  unfold handler at h
  cases hf : st.file with
  | none =>
    simp only [hf] at h
    cases h
    exact ⟨Or.inl rfl, rfl, rfl, rfl, rfl, rfl, rfl, rfl, Or.inl rfl, Or.inl rfl⟩
  | some f =>
    simp only [hf] at h
    by_cases hr : rOk = true
    · rw [if_pos hr] at h
      cases h
    · rw [if_neg hr] at h
      cases h
      refine ⟨Or.inr rfl, rfl, rfl, rfl, rfl, rfl, rfl, rfl, Or.inr (by simp), Or.inr (by simp)⟩

/-- Exhaustive description of the except-handler's outcomes. -/
theorem handler_cases (content : List Nat) (st : St) (rOk : Bool) :
    (st.file = none ∧ handler content st rOk =
        .inr ({ st with tryouts := st.tryouts + 1, sleeps := st.sleeps + 1 },
          .exc .fileNotFound)) ∨
    (∃ f, st.file = some f ∧ rOk = true ∧ handler content st rOk =
        .inl { st with
          tryouts := st.tryouts + 1, sleeps := st.sleeps + 1,
          sessRange := some f.length,
          retryRanges := st.retryRanges ++ [f.length],
          conn := content.drop f.length, consumed := false }) ∨
    (∃ f, st.file = some f ∧ rOk = false ∧ handler content st rOk =
        .inr ({ st with
          tryouts := st.tryouts + 1, sleeps := st.sleeps + 1,
          sessRange := some f.length,
          retryRanges := st.retryRanges ++ [f.length] },
          .exc .netError)) := by
  unfold handler
  cases hf : st.file with
  | none => exact Or.inl ⟨rfl, rfl⟩
  | some f =>
    cases rOk with
    | true => exact Or.inr (Or.inl ⟨f, rfl, rfl, rfl⟩)
    | false => exact Or.inr (Or.inr ⟨f, rfl, rfl, rfl⟩)

/-- Exhaustive description of one loop iteration. -/
theorem step_cases (content : List Nat) (st : St) (e : Ev) :
    (st.consumed = true ∧ step content st e = handler content st (evROk e)) ∨
    (st.consumed = false ∧ e = .ok ∧ step content st e =
        .inl { writeBytes st st.conn with
          consumed := true,
          streamReads := (writeBytes st st.conn).streamReads + 1 }) ∨
    (∃ d rOk, st.consumed = false ∧ e = .err d rOk ∧ step content st e =
        handler content
          { writeBytes st (st.conn.take d) with
            streamReads := (writeBytes st (st.conn.take d)).streamReads + 1 }
          rOk) := by
  unfold step
  by_cases hc : st.consumed = true
  · exact Or.inl ⟨hc, by rw [if_pos hc]⟩
  · cases e with
    | ok => exact Or.inr (Or.inl ⟨by simpa using hc, rfl, by rw [if_neg hc]⟩)
    | err d rOk =>
      exact Or.inr (Or.inr ⟨d, rOk, by simpa using hc, rfl, by rw [if_neg hc]⟩)

/-- The loop measure drops on every continuing step. -/
theorem mSt_step_lt {content : List Nat} {st : St} {e : Ev} {st2 : St}
    (hc : loopCond st = true) (hs : step content st e = .inl st2) :
    mSt st2 < mSt st := by
  have ht : st.tryouts < 5 := loopCond_tryouts hc
  rcases step_cases content st e with ⟨hcon, he⟩ | ⟨hcon, _, he⟩ | ⟨d, rOk, hcon, _, he⟩
  · rw [he] at hs
    rcases handler_cases content st (evROk e) with ⟨_, hh⟩ | ⟨f, _, _, hh⟩ | ⟨f, _, _, hh⟩ <;>
      rw [hh] at hs
    · cases hs
    · cases hs
      simp [mSt, hcon]
      omega
    · cases hs
  · rw [he] at hs
    cases hs
    simp [mSt, writeBytes, hcon]
  · rw [he] at hs
    rcases handler_cases content
        { writeBytes st (st.conn.take d) with
          streamReads := (writeBytes st (st.conn.take d)).streamReads + 1 } rOk with
      ⟨_, hh⟩ | ⟨f, _, _, hh⟩ | ⟨f, _, _, hh⟩ <;> rw [hh] at hs
    · cases hs
    · cases hs
      simp [mSt, writeBytes, hcon]
      omega
    · cases hs

/-- A step ending the call does so with a netError or fileNotFound
exception. -/
theorem step_inr_res {content : List Nat} {st : St} {e : Ev} {out : St × DLRes}
    (hs : step content st e = .inr out) :
    out.2 = .exc .netError ∨ out.2 = .exc .fileNotFound := by
  rcases step_cases content st e with ⟨_, he⟩ | ⟨_, _, he⟩ | ⟨d, rOk, _, _, he⟩
  · rw [he] at hs
    rcases handler_cases content st (evROk e) with ⟨_, hh⟩ | ⟨f, _, _, hh⟩ | ⟨f, _, _, hh⟩ <;>
      rw [hh] at hs
    · cases hs; exact Or.inr rfl
    · cases hs
    · cases hs; exact Or.inl rfl
  · rw [he] at hs; cases hs
  · rw [he] at hs
    rcases handler_cases content
        { writeBytes st (st.conn.take d) with
          streamReads := (writeBytes st (st.conn.take d)).streamReads + 1 } rOk with
      ⟨_, hh⟩ | ⟨f, _, _, hh⟩ | ⟨f, _, _, hh⟩ <;> rw [hh] at hs
    · cases hs; exact Or.inr rfl
    · cases hs
    · cases hs; exact Or.inl rfl

/-- Generic preservation of a state predicate along the loop. -/
theorem loop_fst_pres (content : List Nat) (P : St → Prop)
    (hstep : ∀ st e, P st → P (outSt (step content st e))) :
    ∀ fuel evs st, P st → P (loop content fuel evs st).1 := by
  intro fuel
  induction fuel with
  | zero => intro evs st h; simpa [loop] using h
  | succ n ih =>
    intro evs st h
    rw [loop]
    by_cases hc : loopCond st = true
    · rw [if_pos hc]
      cases hs : step content st (evs.headD .ok) with
      | inl st2 =>
        have h2 := hstep st (evs.headD .ok) h
        rw [hs] at h2
        exact ih evs.tail st2 h2
      | inr out =>
        have h2 := hstep st (evs.headD .ok) h
        rw [hs] at h2
        cases out with
        | mk s r => exact h2
    · rw [if_neg hc, exitCheck_fst]
      exact h

/-- Fields the loop body never writes. -/
theorem step_pres_const (content : List Nat) (st : St) (e : Ev) :
    (outSt (step content st e)).dlSize = st.dlSize ∧
      (outSt (step content st e)).resumeRange = st.resumeRange ∧
      (outSt (step content st e)).initRange = st.initRange ∧
      (outSt (step content st e)).closedNoBody = st.closedNoBody ∧
      (outSt (step content st e)).alreadyBranch = st.alreadyBranch := by
  rcases step_cases content st e with ⟨hc, he⟩ | ⟨hc, _, he⟩ | ⟨d, rOk, hc, _, he⟩
  · rw [he]
    rcases handler_cases content st (evROk e) with ⟨_, hh⟩ | ⟨f, _, _, hh⟩ | ⟨f, _, _, hh⟩ <;>
      rw [hh] <;> simp [outSt]
  · rw [he]
    simp [outSt, writeBytes]
  · rw [he]
    rcases handler_cases content
        { writeBytes st (st.conn.take d) with
          streamReads := (writeBytes st (st.conn.take d)).streamReads + 1 } rOk with
      ⟨_, hh⟩ | ⟨f, _, _, hh⟩ | ⟨f, _, _, hh⟩ <;> rw [hh] <;> simp [outSt, writeBytes]

/-- The loop body only ever appends to the destination file. -/
theorem step_pres_prefix (content : List Nat) (st : St) (e : Ev) :
    ∃ t, (outSt (step content st e)).file.getD [] = st.file.getD [] ++ t := by
  rcases step_cases content st e with ⟨hc, he⟩ | ⟨hc, _, he⟩ | ⟨d, rOk, hc, _, he⟩
  · rw [he]
    rcases handler_cases content st (evROk e) with ⟨_, hh⟩ | ⟨f, _, _, hh⟩ | ⟨f, _, _, hh⟩ <;>
      rw [hh] <;> exact ⟨[], by simp [outSt]⟩
  · rw [he]
    exact ⟨st.conn, by simp [outSt, writeBytes, fileAppend_getD]⟩
  · rw [he]
    rcases handler_cases content
        { writeBytes st (st.conn.take d) with
          streamReads := (writeBytes st (st.conn.take d)).streamReads + 1 } rOk with
      ⟨_, hh⟩ | ⟨f, _, _, hh⟩ | ⟨f, _, _, hh⟩ <;> rw [hh] <;>
      exact ⟨st.conn.take d, by simp [outSt, writeBytes, fileAppend_getD]⟩

/-- The loop body never deletes the destination file. -/
theorem step_pres_isSome (content : List Nat) (st : St) (e : Ev)
    (h : st.file.isSome = true) :
    (outSt (step content st e)).file.isSome = true := by
  rcases step_cases content st e with ⟨hc, he⟩ | ⟨hc, _, he⟩ | ⟨d, rOk, hc, _, he⟩
  · rw [he]
    rcases handler_cases content st (evROk e) with ⟨_, hh⟩ | ⟨f, _, _, hh⟩ | ⟨f, _, _, hh⟩ <;>
      rw [hh] <;> simpa [outSt] using h
  · rw [he]
    simpa [outSt, writeBytes] using fileAppend_isSome st.file st.conn h
  · rw [he]
    rcases handler_cases content
        { writeBytes st (st.conn.take d) with
          streamReads := (writeBytes st (st.conn.take d)).streamReads + 1 } rOk with
      ⟨_, hh⟩ | ⟨f, _, _, hh⟩ | ⟨f, _, _, hh⟩ <;> rw [hh] <;>
      simpa [outSt, writeBytes] using fileAppend_isSome st.file (st.conn.take d) h

/-- A Range entry once present in the session headers stays present. -/
theorem step_pres_sess (content : List Nat) (st : St) (e : Ev)
    (h : st.sessRange ≠ none) :
    (outSt (step content st e)).sessRange ≠ none := by
  rcases step_cases content st e with ⟨hc, he⟩ | ⟨hc, _, he⟩ | ⟨d, rOk, hc, _, he⟩
  · rw [he]
    rcases handler_cases content st (evROk e) with ⟨_, hh⟩ | ⟨f, _, _, hh⟩ | ⟨f, _, _, hh⟩ <;>
      rw [hh] <;> simp [outSt, h]
  · rw [he]
    simpa [outSt, writeBytes] using h
  · rw [he]
    rcases handler_cases content
        { writeBytes st (st.conn.take d) with
          streamReads := (writeBytes st (st.conn.take d)).streamReads + 1 } rOk with
      ⟨_, hh⟩ | ⟨f, _, _, hh⟩ | ⟨f, _, _, hh⟩ <;> rw [hh] <;>
      simp [outSt, writeBytes, h]

/-- Whenever the loop body grows the list of issued retry ranges it also
leaves a Range entry in the session headers. -/
theorem step_pres_retry (content : List Nat) (R0 : List Nat) (st : St) (e : Ev)
    (h : st.sessRange ≠ none ∨ st.retryRanges = R0) :
    (outSt (step content st e)).sessRange ≠ none ∨
      (outSt (step content st e)).retryRanges = R0 := by
  rcases step_cases content st e with ⟨hc, he⟩ | ⟨hc, _, he⟩ | ⟨d, rOk, hc, _, he⟩
  · rw [he]
    rcases handler_cases content st (evROk e) with ⟨_, hh⟩ | ⟨f, _, _, hh⟩ | ⟨f, _, _, hh⟩ <;>
      rw [hh]
    · rcases h with h | h
      · exact Or.inl (by simpa [outSt] using h)
      · exact Or.inr (by simpa [outSt] using h)
    · exact Or.inl (by simp [outSt])
    · exact Or.inl (by simp [outSt])
  · rw [he]
    rcases h with h | h
    · exact Or.inl (by simpa [outSt, writeBytes] using h)
    · exact Or.inr (by simpa [outSt, writeBytes] using h)
  · rw [he]
    rcases handler_cases content
        { writeBytes st (st.conn.take d) with
          streamReads := (writeBytes st (st.conn.take d)).streamReads + 1 } rOk with
      ⟨_, hh⟩ | ⟨f, _, _, hh⟩ | ⟨f, _, _, hh⟩ <;> rw [hh]
    · rcases h with h | h
      · exact Or.inl (by simpa [outSt, writeBytes] using h)
      · exact Or.inr (by simpa [outSt, writeBytes] using h)
    · exact Or.inl (by simp [outSt])
    · exact Or.inl (by simp [outSt])

/-- The size invariant survives a continuing loop iteration. -/
theorem step_sizeInv_inl {content : List Nat} {st : St} {e : Ev} {st2 : St}
    (h : SizeInv content st) (hs : step content st e = .inl st2) :
    SizeInv content st2 := by
  obtain ⟨h1, h2, h3, h4⟩ := h
  rcases step_cases content st e with ⟨hc, he⟩ | ⟨hc, _, he⟩ | ⟨d, rOk, hc, _, he⟩
  · rw [he] at hs
    rcases handler_cases content st (evROk e) with ⟨hf, hh⟩ | ⟨f, hf, _, hh⟩ | ⟨f, hf, _, hh⟩ <;>
      rw [hh] at hs
    · cases hs
    · cases hs
      have h2f : f.length ≤ content.length := by
        have h2x := h2
        rw [hf] at h2x
        simpa [fileSize] using h2x
      refine ⟨h1, h2, fun _ => ?_, h4⟩
      simp only [hf, fileSize, List.length_drop]
      omega
    · cases hs
  · rw [he] at hs
    cases hs
    have hlen : fileSize (fileAppend st.file st.conn) ≤ content.length := by
      rw [fileSize_fileAppend]
      exact h3 hc
    refine ⟨h1, by simpa [writeBytes] using hlen, fun hx => by simp [writeBytes] at hx, ?_⟩
    simp only [writeBytes]
    exact max_le h4 hlen
  · rw [he] at hs
    have hlen1 : fileSize (fileAppend st.file (st.conn.take d)) ≤ content.length := by
      rw [fileSize_fileAppend]
      have h3c := h3 hc
      have htk : (st.conn.take d).length ≤ st.conn.length := by
        simp [List.length_take]
      omega
    rcases handler_cases content
        { writeBytes st (st.conn.take d) with
          streamReads := (writeBytes st (st.conn.take d)).streamReads + 1 } rOk with
      ⟨hf, hh⟩ | ⟨f, hf, _, hh⟩ | ⟨f, hf, _, hh⟩ <;> rw [hh] at hs
    · cases hs
    · cases hs
      have hfeq : fileAppend st.file (st.conn.take d) = some f := by
        simpa [writeBytes] using hf
      have h2f : f.length ≤ content.length := by
        rw [hfeq] at hlen1
        simpa [fileSize] using hlen1
      refine ⟨h1, by simpa [writeBytes] using hlen1, fun _ => ?_, ?_⟩
      · simp only [writeBytes, hfeq, fileSize, List.length_drop]
        omega
      · simp only [writeBytes]
        exact max_le h4 (by simpa [writeBytes] using hlen1)
    · cases hs
  
/-- A loop iteration that ends the call leaves the size bound intact. -/
theorem step_sizeBound_inr {content : List Nat} {st : St} {e : Ev}
    {out : St × DLRes} (h : SizeInv content st)
    (hs : step content st e = .inr out) : SizeBound content out.1 := by
  obtain ⟨h1, h2, h3, h4⟩ := h
  rcases step_cases content st e with ⟨hc, he⟩ | ⟨hc, _, he⟩ | ⟨d, rOk, hc, _, he⟩
  · rw [he] at hs
    rcases handler_cases content st (evROk e) with ⟨hf, hh⟩ | ⟨f, hf, _, hh⟩ | ⟨f, hf, _, hh⟩ <;>
      rw [hh] at hs
    · cases hs
      exact ⟨h1, h2, h4⟩
    · cases hs
    · cases hs
      exact ⟨h1, h2, h4⟩
  · rw [he] at hs
    cases hs
  · rw [he] at hs
    have hlen1 : fileSize (fileAppend st.file (st.conn.take d)) ≤ content.length := by
      rw [fileSize_fileAppend]
      have h3c := h3 hc
      have htk : (st.conn.take d).length ≤ st.conn.length := by
        simp [List.length_take]
      omega
    rcases handler_cases content
        { writeBytes st (st.conn.take d) with
          streamReads := (writeBytes st (st.conn.take d)).streamReads + 1 } rOk with
      ⟨hf, hh⟩ | ⟨f, hf, _, hh⟩ | ⟨f, hf, _, hh⟩ <;> rw [hh] at hs
    · cases hs
      refine ⟨h1, by simpa [writeBytes] using hlen1, ?_⟩
      simp only [writeBytes]
      exact max_le h4 (by simpa [writeBytes] using hlen1)
    · cases hs
    · cases hs
      refine ⟨h1, by simpa [writeBytes] using hlen1, ?_⟩
      simp only [writeBytes]
      exact max_le h4 (by simpa [writeBytes] using hlen1)

/-- Through the whole loop the size bound holds of the resulting state. -/
theorem loop_sizeBound (content : List Nat) :
    ∀ fuel evs st, SizeInv content st →
      SizeBound content (loop content fuel evs st).1 := by
  intro fuel
  induction fuel with
  | zero =>
    intro evs st h
    simpa [loop, SizeBound] using ⟨h.1, h.2.1, h.2.2.2⟩
  | succ n ih =>
    intro evs st h
    rw [loop]
    by_cases hc : loopCond st = true
    · rw [if_pos hc]
      cases hs : step content st (evs.headD .ok) with
      | inl st2 => exact ih evs.tail st2 (step_sizeInv_inl h hs)
      | inr out => exact step_sizeBound_inr h hs
    · rw [if_neg hc, exitCheck_fst]
      exact ⟨h.1, h.2.1, h.2.2.2⟩

/-- With enough fuel relative to the measure, the loop never runs out:
this is the formal shape of loop termination. -/
theorem loop_no_fuelOut (content : List Nat) :
    ∀ fuel evs st, mSt st < fuel →
      (loop content fuel evs st).2 ≠ .exc .fuelOut := by
  intro fuel
  induction fuel with
  | zero => intro evs st hm; omega
  | succ n ih =>
    intro evs st hm
    rw [loop]
    by_cases hc : loopCond st = true
    · rw [if_pos hc]
      cases hs : step content st (evs.headD .ok) with
      | inl st2 =>
        exact ih evs.tail st2 (by have := mSt_step_lt hc hs; omega)
      | inr out =>
        rcases step_inr_res hs with h | h <;> simp [h]
    · rw [if_neg hc]
      rcases exitCheck_snd st with h | h | h <;> simp [h]

/-- Every loop outcome is a 0/1 return value, a netError, a fileNotFound
or the fuel marker. -/
theorem loop_res_cases (content : List Nat) :
    ∀ fuel evs st,
      (loop content fuel evs st).2 = .ret 0 ∨
        (loop content fuel evs st).2 = .ret 1 ∨
        (loop content fuel evs st).2 = .exc .netError ∨
        (loop content fuel evs st).2 = .exc .fileNotFound ∨
        (loop content fuel evs st).2 = .exc .fuelOut := by
  intro fuel
  induction fuel with
  | zero => intro evs st; simp [loop]
  | succ n ih =>
    intro evs st
    rw [loop]
    by_cases hc : loopCond st = true
    · rw [if_pos hc]
      cases hs : step content st (evs.headD .ok) with
      | inl st2 => exact ih evs.tail st2
      | inr out =>
        rcases step_inr_res hs with h | h
        · exact Or.inr (Or.inr (Or.inl h))
        · exact Or.inr (Or.inr (Or.inr (Or.inl h)))
    · rw [if_neg hc]
      rcases exitCheck_snd st with h | h | h
      · exact Or.inl h
      · exact Or.inr (Or.inl h)
      · exact Or.inr (Or.inr (Or.inr (Or.inl h)))

/-- When the destination file exists, a step driven by an event whose
reconnection succeeds always continues the loop, and the file still
exists. -/
theorem step_inl_of {content : List Nat} (st : St) (e : Ev)
    (hf : st.file.isSome = true) (hr : evROk e = true) :
    ∃ st2, step content st e = .inl st2 ∧ st2.file.isSome = true := by
  rcases step_cases content st e with ⟨hc, he⟩ | ⟨hc, _, he⟩ | ⟨d, rOk, hc, hed, he⟩
  · rcases handler_cases content st (evROk e) with ⟨hfn, _⟩ | ⟨f, _, _, hh⟩ | ⟨f, _, hrf, _⟩
    · rw [hfn] at hf; cases hf
    · refine ⟨_, by rw [he, hh], ?_⟩
      simpa using hf
    · rw [hr] at hrf; cases hrf
  · refine ⟨_, by rw [he], ?_⟩
    simpa [writeBytes] using fileAppend_isSome st.file st.conn hf
  · have hrT : rOk = true := by rw [hed] at hr; exact hr
    have hf1 : ({ writeBytes st (st.conn.take d) with
        streamReads := (writeBytes st (st.conn.take d)).streamReads + 1 } : St).file.isSome
        = true := by
      simpa [writeBytes] using fileAppend_isSome st.file (st.conn.take d) hf
    rcases handler_cases content
        { writeBytes st (st.conn.take d) with
          streamReads := (writeBytes st (st.conn.take d)).streamReads + 1 } rOk with
      ⟨hfn, _⟩ | ⟨f, _, _, hh⟩ | ⟨f, _, hrf, _⟩
    · rw [hfn] at hf1; cases hf1
    · refine ⟨_, by rw [he, hh], ?_⟩
      simpa using hf1
    · rw [hrT] at hrf; cases hrf

/-- When the destination file exists and no reconnection in the oracle
fails, the loop always returns 0 or 1: no exception escapes. -/
theorem loop_ret01 (content : List Nat) :
    ∀ fuel evs st, mSt st < fuel → st.file.isSome = true →
      (∀ e ∈ evs, evROk e = true) →
      (loop content fuel evs st).2 = .ret 0 ∨
        (loop content fuel evs st).2 = .ret 1 := by
  intro fuel
  induction fuel with
  | zero => intro evs st hm; omega
  | succ n ih =>
    intro evs st hm hf hevs
    rw [loop]
    by_cases hc : loopCond st = true
    · rw [if_pos hc]
      have hr : evROk (evs.headD .ok) = true := by
        cases evs with
        | nil => rfl
        | cons a l => exact hevs a (by simp)
      obtain ⟨st2, hs, hf2⟩ := step_inl_of st (evs.headD .ok) hf hr
      rw [hs]
      refine ih evs.tail st2 (by have := mSt_step_lt hc hs; omega) hf2 ?_
      intro e he
      cases evs with
      | nil => cases he
      | cons a l => exact hevs e (by simp at he ⊢; exact Or.inr he)
    · rw [if_neg hc]
      unfold exitCheck
      cases hfo : st.file with
      | none => rw [hfo] at hf; cases hf
      | some f => by_cases hl : f.length = st.dlSize <;> simp [hl]

/-- Unfolding download in the pre-existing-file resume branch. -/
theorem download_resume_eq (content f : List Nat) (sr : Option Nat)
    (ras : Bool) (evs : List Ev)
    (hne : f.length ≠ (applyRange (if ras = true then none else sr) content).length) :
    download content (some f) sr ras true true evs =
      loop content 12 evs (resumeSt content f (if ras = true then none else sr)) := by
  unfold download
  simp [hne, fileSize, resumeSt]

/-- Unfolding download in the already-complete branch. -/
theorem download_already_eq (content f : List Nat) (sr : Option Nat)
    (ras rsk : Bool) (evs : List Ev)
    (heq : f.length = (applyRange (if ras = true then none else sr) content).length) :
    download content (some f) sr ras true rsk evs =
      ({ dlSize := (applyRange (if ras = true then none else sr) content).length
         file := some f
         conn := []
         consumed := false
         sessRange := if ras = true then none else sr
         tryouts := 0
         initRange := if ras = true then none else sr
         resumeRange := none
         retryRanges := []
         closedNoBody := true
         alreadyBranch := true
         bodyBytesRead := 0
         streamReads := 0
         sleeps := 0
         maxSize := f.length }, .ret 1) := by
  unfold download
  simp [heq, fileSize]

/-- Unfolding download when no destination file pre-exists. -/
theorem download_nofile_eq (content : List Nat) (sr : Option Nat)
    (ras rsk : Bool) (evs : List Ev) :
    download content none sr ras true rsk evs =
      loop content 12 evs (nofileSt content (if ras = true then none else sr)) := by
  unfold download
  simp [fileSize, nofileSt]

/-- Unfolding download when the initial request fails. -/
theorem download_openFail_eq (content : List Nat) (file0 : Option (List Nat))
    (sr : Option Nat) (ras rsk : Bool) (evs : List Ev) :
    download content file0 sr ras false rsk evs =
      ({ dlSize := (applyRange (if ras = true then none else sr) content).length
         file := file0
         conn := []
         consumed := false
         sessRange := if ras = true then none else sr
         tryouts := 0
         initRange := if ras = true then none else sr
         resumeRange := none
         retryRanges := []
         closedNoBody := false
         alreadyBranch := false
         bodyBytesRead := 0
         streamReads := 0
         sleeps := 0
         maxSize := fileSize file0 }, .ret 0) := by
  unfold download
  simp

/-- Unfolding download when the resume request fails. -/
theorem download_resumeFail_eq (content f : List Nat) (sr : Option Nat)
    (ras : Bool) (evs : List Ev)
    (hne : f.length ≠ (applyRange (if ras = true then none else sr) content).length) :
    download content (some f) sr ras true false evs =
      ({ dlSize := (applyRange (if ras = true then none else sr) content).length
         file := some f
         conn := []
         consumed := false
         sessRange := some f.length
         tryouts := 0
         initRange := if ras = true then none else sr
         resumeRange := some f.length
         retryRanges := []
         closedNoBody := true
         alreadyBranch := false
         bodyBytesRead := 0
         streamReads := 0
         sleeps := 0
         maxSize := f.length }, .ret 0) := by
  unfold download
  simp [hne, fileSize]

/-- A single clean stream run that fills the file to the declared size
ends the loop with return value 1. -/
theorem loop_ok_once (content : List Nat) (fuel : Nat) (evs : List Ev) (st : St)
    (g : List Nat) (hc : loopCond st = true) (hcons : st.consumed = false)
    (hg : fileAppend st.file st.conn = some g) (hgl : g.length = st.dlSize) :
    loop content (fuel + 1 + 1) (Ev.ok :: evs) st =
      ({ writeBytes st st.conn with
          consumed := true
          streamReads := (writeBytes st st.conn).streamReads + 1 }, .ret 1) := by
  rw [loop, if_pos hc]
  have hs : step content st ((Ev.ok :: evs).headD .ok) =
      .inl { writeBytes st st.conn with
        consumed := true
        streamReads := (writeBytes st st.conn).streamReads + 1 } := by
    rcases step_cases content st Ev.ok with ⟨hcT, _⟩ | ⟨_, _, he⟩ | ⟨d, rOk, _, hed, _⟩
    · rw [hcons] at hcT; cases hcT
    · simpa using he
    · cases hed
  rw [hs]
  show loop content (fuel + 1) evs
      ({ writeBytes st st.conn with
        consumed := true
        streamReads := (writeBytes st st.conn).streamReads + 1 }) = _
  have hfw : ({ writeBytes st st.conn with
      consumed := true
      streamReads := (writeBytes st st.conn).streamReads + 1 } : St).file = some g := by
    simpa [writeBytes] using hg
  have hcW : ¬ (loopCond ({ writeBytes st st.conn with
      consumed := true
      streamReads := (writeBytes st st.conn).streamReads + 1 } : St) = true) := by
    simp [loopCond, writeBytes, fileSize, hg, hgl]
  rw [loop, if_neg hcW]
  unfold exitCheck
  rw [hfw]
  simp [writeBytes, hgl]

/-- Retries that deliver no bytes leave the file untouched and exhaust the
five tryouts: each burns one stream read and one sleep. -/
theorem loop_err0_stuck (content f : List Nat) :
    ∀ j fuel st, st.file = some f → st.consumed = false →
      st.tryouts + j = 5 → f.length < st.dlSize → j < fuel →
      (loop content fuel (List.replicate j (Ev.err 0 true)) st).2 = .ret 0 ∧
        (loop content fuel (List.replicate j (Ev.err 0 true)) st).1.streamReads =
          st.streamReads + j ∧
        (loop content fuel (List.replicate j (Ev.err 0 true)) st).1.sleeps =
          st.sleeps + j := by
  intro j
  induction j with
  | zero =>
    intro fuel st hf hcons htr hlt hfuel
    cases fuel with
    | zero => omega
    | succ n =>
      have hcF : ¬ (loopCond st = true) := by
        simp [loopCond, hf, fileSize]
        omega
      rw [loop, if_neg hcF]
      unfold exitCheck
      rw [hf]
      have : ¬ (f.length = st.dlSize) := by omega
      simp [this]
  | succ j ih =>
    intro fuel st hf hcons htr hlt hfuel
    cases fuel with
    | zero => omega
    | succ n =>
      have hcT : loopCond st = true := by
        simp [loopCond, hf, fileSize]
        omega
      set stm : St := { writeBytes st (st.conn.take 0) with
        streamReads := (writeBytes st (st.conn.take 0)).streamReads + 1 } with hstm
      have hs : step content st (Ev.err 0 true) = handler content stm true := by
        rcases step_cases content st (Ev.err 0 true) with
          ⟨hcC, _⟩ | ⟨_, hed, _⟩ | ⟨d, rOk, _, hed, he⟩
        · rw [hcons] at hcC; cases hcC
        · cases hed
        · cases hed
          rw [← hstm] at he
          exact he
      have hsf : stm.file = some f := by
        simp [hstm, writeBytes, fileAppend, hf]
      rcases handler_cases content stm true with
        ⟨hfn, _⟩ | ⟨f2, hf2, _, hh⟩ | ⟨f2, _, hr2, _⟩
      · rw [hsf] at hfn; cases hfn
      · rw [hsf] at hf2
        cases hf2
        rw [loop, if_pos hcT, List.replicate_succ, List.headD_cons, List.tail_cons, hs, hh]
        obtain ⟨ha, hb, hcc⟩ := ih n
          { stm with
            tryouts := stm.tryouts + 1, sleeps := stm.sleeps + 1,
            sessRange := some f.length,
            retryRanges := stm.retryRanges ++ [f.length],
            conn := content.drop f.length, consumed := false }
          (by simpa using hsf) rfl
          (by simp [hstm, writeBytes]; omega)
          (by simp [hstm, writeBytes]; omega)
          (by omega)
        refine ⟨ha, hb.trans ?_, hcc.trans ?_⟩
        · simp [hstm, writeBytes]
          omega
        · simp [hstm, writeBytes]
          omega
      · cases hr2

theorem fileAppend_eq_append (f : Option (List Nat)) (d : List Nat) (hd : d ≠ []) :
    fileAppend f d = some (f.getD [] ++ d) := by
  cases d with
  | nil => cases hd rfl
  | cons a l => rfl

/-- The declared length is fixed for the whole loop. -/
theorem loop_dlSize (content : List Nat) (fuel : Nat) (evs : List Ev) (st : St) :
    (loop content fuel evs st).1.dlSize = st.dlSize :=
  loop_fst_pres content (fun s => s.dlSize = st.dlSize)
    (fun s e h => ((step_pres_const content s e).1).trans h) fuel evs st rfl

/-- The loop never issues the PROBE-branch resume request. -/
theorem loop_resumeRange (content : List Nat) (fuel : Nat) (evs : List Ev) (st : St) :
    (loop content fuel evs st).1.resumeRange = st.resumeRange :=
  loop_fst_pres content (fun s => s.resumeRange = st.resumeRange)
    (fun s e h => ((step_pres_const content s e).2.1).trans h) fuel evs st rfl

/-- A session Range entry present at loop entry is present at the end. -/
theorem loop_sessSome (content : List Nat) (fuel : Nat) (evs : List Ev) (st : St)
    (h : st.sessRange ≠ none) : (loop content fuel evs st).1.sessRange ≠ none :=
  loop_fst_pres content (fun s => s.sessRange ≠ none)
    (fun s e hp => step_pres_sess content s e hp) fuel evs st h

/-- If the loop issued any handler reconnection then a Range entry is in
the session at the end. -/
theorem loop_retrySess (content : List Nat) (fuel : Nat) (evs : List Ev) (st : St)
    (h0 : st.retryRanges = []) (hne : (loop content fuel evs st).1.retryRanges ≠ []) :
    (loop content fuel evs st).1.sessRange ≠ none := by
  have := loop_fst_pres content
    (fun s => s.sessRange ≠ none ∨ s.retryRanges = [])
    (fun s e hp => step_pres_retry content [] s e hp) fuel evs st (Or.inr h0)
  rcases this with h | h
  · exact h
  · cases hne h

/-- The final file extends the file present at loop entry. -/
theorem loop_prefix (content : List Nat) (fuel : Nat) (evs : List Ev) (st : St) :
    ∃ t, (loop content fuel evs st).1.file.getD [] = st.file.getD [] ++ t := by
  have := loop_fst_pres content
    (fun s => ∃ t, s.file.getD [] = st.file.getD [] ++ t)
    (fun s e hp => by
      obtain ⟨t1, ht1⟩ := hp
      obtain ⟨t2, ht2⟩ := step_pres_prefix content s e
      exact ⟨t1 ++ t2, by rw [ht2, ht1, List.append_assoc]⟩)
    fuel evs st ⟨[], by simp⟩
  exact this

/-- No download run ever exhausts the loop fuel: the retry loop always
terminates. -/
theorem download_no_fuelOut (content : List Nat) (file0 : Option (List Nat))
    (sr : Option Nat) (ras oOk rsk : Bool) (evs : List Ev) :
    (download content file0 sr ras oOk rsk evs).2 ≠ .exc .fuelOut := by
  by_cases ho : oOk = true
  · subst ho
    cases file0 with
    | none =>
      rw [download_nofile_eq content sr ras rsk evs]
      exact loop_no_fuelOut content 12 evs _ (by norm_num [mSt, nofileSt])
    | some f =>
      by_cases heq : f.length =
          (applyRange (if ras = true then none else sr) content).length
      · rw [download_already_eq content f sr ras rsk evs heq]
        simp
      · by_cases hr : rsk = true
        · subst hr
          rw [download_resume_eq content f sr ras evs heq]
          exact loop_no_fuelOut content 12 evs _ (by norm_num [mSt, resumeSt])
        · have hr2 : rsk = false := by simpa using hr
          subst hr2
          rw [download_resumeFail_eq content f sr ras evs heq]
          simp
  · have ho2 : oOk = false := by simpa using ho
    subst ho2
    rw [download_openFail_eq content file0 sr ras rsk evs]
    simp

theorem length_pySliceFrom_le (s : List Char) (i : Int) (hi : i < 0) :
    (pySliceFrom s i).length ≤ i.natAbs := by
  unfold pySliceFrom
  rw [if_pos hi, List.length_drop]
  omega

/-- C3 counterexample: the claimed renewal policy (renew iff current time
is at or past issue + W - M, for every validity window W with M = 600) is
false on the code: with W = 2000 a call at time 700 renews although
700 < issue + W - M = 1400; the code never consults W. -/
theorem c3_renewal_counterexample :
    ¬ (∀ W issue now : Int, (renew now issue = true ↔ now ≥ issue + W - 600)) := by
  intro h
  have h2 := (h 2000 0 700).mp (by decide)
  omega

/-- C3 (amended): renew (sentinelDL.py lines 118-125) returns true and
fetches a fresh token iff the current time is strictly later than the
token's issue time plus 600 seconds; the credential's validity window is
never consulted.  In particular a call at issue + 599 does not renew and
a call at issue + 601 does. -/
theorem c3_renewal_boundary (now issue : Int) :
    (renew now issue = true ↔ now > issue + 600) ∧
      renew (issue + 599) issue = false ∧ renew (issue + 601) issue = true := by
  refine ⟨by simp [renew], ?_, ?_⟩
  · simp [renew]
  · simp [renew]

/-- C6: in the per-chunk statistics of the stream loop (lines 185-195),
a zero measured elapsed time (total or per-chunk) yields rate 0 and the
ETA sentinel, and in the other branch both divisors of the rate and ETA
computations are nonzero, so no division by zero occurs (the chunk is
nonempty because of the if-data guard at line 182). -/
theorem c6_rate_eta_guard (dataLen dlSize fsize : Nat) (dlt dlstep : ℚ) :
    (dlt = 0 ∨ dlstep = 0 →
      rateEta dataLen dlSize fsize dlt dlstep = (0, EtaV.na)) ∧
    (0 < dataLen → dlt ≠ 0 → dlstep ≠ 0 →
      (rateEta dataLen dlSize fsize dlt dlstep).1 ≠ 0 ∧
        (rateEta dataLen dlSize fsize dlt dlstep).1 * 1048576 ≠ 0) := by
  constructor
  · intro h
    unfold rateEta
    rcases h with h | h <;> simp [h]
  · intro hd ht hs
    have hrate : (rateEta dataLen dlSize fsize dlt dlstep).1 =
        ((dataLen : ℚ) / 1048576) / dlstep := by
      unfold rateEta
      rw [if_pos ⟨ht, hs⟩]
    have hne : ((dataLen : ℚ) / 1048576) / dlstep ≠ 0 := by
      refine div_ne_zero (div_ne_zero ?_ (by norm_num)) hs
      exact_mod_cast Nat.pos_iff_ne_zero.mp hd
    rw [hrate]
    exact ⟨hne, mul_ne_zero hne (by norm_num)⟩

/-- C6 witness at concrete inputs. -/
theorem c6_rate_eta_guard_witness :
    rateEta 1048576 3145728 1048576 0 1 = (0, EtaV.na) ∧
      (rateEta 1048576 3145728 1048576 1 2).1 ≠ 0 :=
  ⟨(c6_rate_eta_guard 1048576 3145728 1048576 0 1).1 (Or.inl rfl),
    ((c6_rate_eta_guard 1048576 3145728 1048576 1 2).2 (by norm_num)
      (by norm_num) (by norm_num)).1⟩

/-- C9 counterexample: the reporter does not gate on standard error being
a terminal: with stdin a terminal and stderr not, message still writes. -/
theorem c9_message_counterexample :
    ¬ (∀ (stdinTTY stderrTTY : Bool) (sz : Option (Nat × Nat))
        (msg : List Char) (nl : Bool) (x : Nat),
        ((message stdinTTY sz msg nl x).isSome = true ↔ stderrTTY = true)) := by
  intro h
  have h2 := (h true false (some (24, 80)) ['h', 'i'] false 1000).mp (by decide)
  cases h2

/-- C9 (amended): message writes its escape-sequence line iff standard
INPUT is attached to a terminal (isTTY, lines 82-86, tests sys.stdin);
when the terminal-size probe fails the width defaults to 80 columns and
the written line is truncated to the last 79 characters. -/
theorem c9_message_stdin (stdinTTY : Bool) (sz : Option (Nat × Nat))
    (msg : List Char) (nl : Bool) (x : Nat) :
    ((message stdinTTY sz msg nl x).isSome = true ↔ stdinTTY = true) ∧
      (∀ out, message stdinTTY none msg nl x = some out → out.length ≤ 79) := by
  constructor
  · cases stdinTTY <;> simp [message]
  · intro out hout
    cases stdinTTY with
    | false => simp [message] at hout
    | true =>
      have hneg : (1 - ((80 : Nat) : Int)) < 0 := by decide
      simp only [message, if_neg (by simp : ¬ (true = false)), Option.getD,
        Option.some.injEq] at hout
      rw [← hout]
      exact le_trans (length_pySliceFrom_le _ _ hneg) (by decide)

/-- C9 witness: with stdin interactive and the size probe failing, a long
line is written truncated to 79 characters. -/
theorem c9_message_stdin_witness :
    ((message true none (List.replicate 200 'a') false 1000).isSome = true ↔
        true = true) ∧
      ∀ out, message true none (List.replicate 200 'a') false 1000 = some out →
        out.length ≤ 79 :=
  ⟨(c9_message_stdin true none (List.replicate 200 'a') false 1000).1,
    (c9_message_stdin true none (List.replicate 200 'a') false 1000).2⟩

/-- C1 counterexample: two consecutive calls on the same session.  The
first call resumes target A from offset 1 and leaves Range: bytes=1- in
the session headers.  The second call is exactly the C1 scenario for
target B = [1,2,3] with a correct 2-byte prefix on disk (0 < 2 < 3), yet
because of the stale Range entry its initial response declares length 2,
the already-complete branch fires, no bytes=2- range request is issued
(resumeRange = none) and the file stays [1,2], not byte-identical to the
full content. -/
theorem c1_resume_counterexample :
    (download [9, 9] (some [9]) none false true true [Ev.ok]).2 = DLRes.ret 1 ∧
      (download [9, 9] (some [9]) none false true true [Ev.ok]).1.sessRange = some 1 ∧
      (download [1, 2, 3] (some [1, 2])
          (download [9, 9] (some [9]) none false true true [Ev.ok]).1.sessRange
          false true true [Ev.ok]).1.resumeRange = none ∧
      (download [1, 2, 3] (some [1, 2])
          (download [9, 9] (some [9]) none false true true [Ev.ok]).1.sessRange
          false true true [Ev.ok]).1.file = some [1, 2] ∧
      (download [1, 2, 3] (some [1, 2])
          (download [9, 9] (some [9]) none false true true [Ev.ok]).1.sessRange
          false true true [Ev.ok]).2 = DLRes.ret 1 := by
  decide

/-- C1 (amended): when the shared session carries no Range entry at the
start of the call, for a destination file holding the correct first k
bytes of the content with 0 < k < N, download issues the resume range
request bytes=k- with k read from the on-disk size, appends the response
body and ends with the file byte-identical to the full content,
returning 1. -/
theorem c1_resume_correct (content : List Nat) (k : Nat)
    (_h1 : 0 < k) (h2 : k < content.length) :
    (download content (some (content.take k)) none false true true
        [Ev.ok]).1.resumeRange = some k ∧
      (download content (some (content.take k)) none false true true
        [Ev.ok]).1.file = some content ∧
      (download content (some (content.take k)) none false true true
        [Ev.ok]).2 = DLRes.ret 1 := by
  have hkl : (content.take k).length = k := by
    rw [List.length_take]
    omega
  have hne : (content.take k).length ≠
      (applyRange (if (false : Bool) = true then none else (none : Option Nat))
        content).length := by
    simp [applyRange, hkl]
    omega
  rw [download_resume_eq content (content.take k) none false [Ev.ok] hne]
  have hir : (if (false : Bool) = true then none else (none : Option Nat)) = none := rfl
  rw [hir]
  set stL := resumeSt content (content.take k) none with hstL
  have hcons : stL.consumed = false := by simp [hstL, resumeSt]
  have hcnd : loopCond stL = true := by
    simp [hstL, resumeSt, loopCond, fileSize, applyRange, hkl]
    omega
  have hdne : content.drop k ≠ [] := by
    intro h0
    have := List.drop_eq_nil_iff.mp h0
    omega
  have hg : fileAppend stL.file stL.conn = some content := by
    have hconn : stL.conn = content.drop k := by simp [hstL, resumeSt, hkl]
    have hfile : stL.file = some (content.take k) := by simp [hstL, resumeSt]
    rw [hconn, hfile, fileAppend_eq_append _ _ hdne]
    simp [List.take_append_drop]
  have hgl : content.length = stL.dlSize := by simp [hstL, resumeSt, applyRange]
  have hrun : loop content 12 [Ev.ok] stL =
      ({ writeBytes stL stL.conn with
        consumed := true
        streamReads := (writeBytes stL stL.conn).streamReads + 1 }, .ret 1) :=
    loop_ok_once content 10 [] stL content hcnd hcons hg hgl
  rw [hrun]
  refine ⟨?_, ?_, rfl⟩
  · simp [writeBytes, hstL, resumeSt, hkl]
  · simp [writeBytes, hg]

/-- C1 witness at content [10,20,30] and k = 1. -/
theorem c1_resume_correct_witness :
    (0 < 1 ∧ 1 < ([10, 20, 30] : List Nat).length) ∧
      ((download [10, 20, 30] (some (([10, 20, 30] : List Nat).take 1)) none
          false true true [Ev.ok]).1.resumeRange = some 1 ∧
        (download [10, 20, 30] (some (([10, 20, 30] : List Nat).take 1)) none
          false true true [Ev.ok]).1.file = some [10, 20, 30] ∧
        (download [10, 20, 30] (some (([10, 20, 30] : List Nat).take 1)) none
          false true true [Ev.ok]).2 = DLRes.ret 1) :=
  ⟨by decide, c1_resume_correct [10, 20, 30] 1 (by decide) (by decide)⟩

/-- C2 counterexample: with a 1-byte correct prefix on disk and every
stream attempt raising before any byte is delivered (reconnections
succeeding), the engine performs 5 stream attempts, not 6, before
returning 0. -/
theorem c2_retry_counterexample :
    (download [1, 2] (some [1]) none false true true
        (List.replicate 5 (Ev.err 0 true))).1.streamReads = 5 ∧
      (download [1, 2] (some [1]) none false true true
        (List.replicate 5 (Ev.err 0 true))).1.streamReads ≠ 6 ∧
      (download [1, 2] (some [1]) none false true true
        (List.replicate 5 (Ev.err 0 true))).2 = DLRes.ret 0 := by
  decide

/-- C2 (amended): when every stream attempt fails before the on-disk size
reaches the declared size (shown here with attempts that deliver nothing,
on a partial file so the handler's getsize succeeds), the while-loop at
line 174 (tryouts < 5) makes exactly 5 stream attempts in total (1
initial + 4 retries), performs 5 thirty-second sleeps (the fifth follows
the last attempt and its reconnection is never read), and returns Failed
(0); moreover no download run whatsoever exhausts the loop: the retry
loop never runs forever. -/
theorem c2_retry_bound (content : List Nat) (k : Nat)
    (_h1 : 0 < k) (h2 : k < content.length) :
    ((download content (some (content.take k)) none false true true
        (List.replicate 5 (Ev.err 0 true))).2 = DLRes.ret 0 ∧
      (download content (some (content.take k)) none false true true
        (List.replicate 5 (Ev.err 0 true))).1.streamReads = 5 ∧
      (download content (some (content.take k)) none false true true
        (List.replicate 5 (Ev.err 0 true))).1.sleeps = 5) ∧
      ∀ (c : List Nat) (f0 : Option (List Nat)) (sr : Option Nat)
        (ras oOk rsk : Bool) (evs : List Ev),
        (download c f0 sr ras oOk rsk evs).2 ≠ DLRes.exc Err.fuelOut := by
  refine ⟨?_, fun c f0 sr ras oOk rsk evs => download_no_fuelOut c f0 sr ras oOk rsk evs⟩
  have hkl : (content.take k).length = k := by
    rw [List.length_take]
    omega
  have hne : (content.take k).length ≠
      (applyRange (if (false : Bool) = true then none else (none : Option Nat))
        content).length := by
    simp [applyRange, hkl]
    omega
  rw [download_resume_eq content (content.take k) none false
    (List.replicate 5 (Ev.err 0 true)) hne]
  have hir : (if (false : Bool) = true then none else (none : Option Nat)) = none := rfl
  rw [hir]
  set stL := resumeSt content (content.take k) none with hstL
  obtain ⟨ha, hb, hcc⟩ := loop_err0_stuck content (content.take k) 5 12 stL
    (by simp [hstL, resumeSt]) (by simp [hstL, resumeSt]) (by simp [hstL, resumeSt])
    (by simp [hstL, resumeSt, applyRange, hkl]; omega) (by norm_num)
  refine ⟨ha, ?_, ?_⟩
  · rw [hb]
    simp [hstL, resumeSt]
  · rw [hcc]
    simp [hstL, resumeSt]

/-- C2 witness at content [1,2,3] and k = 1. -/
theorem c2_retry_bound_witness :
    (0 < 1 ∧ 1 < ([1, 2, 3] : List Nat).length) ∧
      (((download [1, 2, 3] (some (([1, 2, 3] : List Nat).take 1)) none false true true
          (List.replicate 5 (Ev.err 0 true))).2 = DLRes.ret 0 ∧
        (download [1, 2, 3] (some (([1, 2, 3] : List Nat).take 1)) none false true true
          (List.replicate 5 (Ev.err 0 true))).1.streamReads = 5 ∧
        (download [1, 2, 3] (some (([1, 2, 3] : List Nat).take 1)) none false true true
          (List.replicate 5 (Ev.err 0 true))).1.sleeps = 5) ∧
        ∀ (c : List Nat) (f0 : Option (List Nat)) (sr : Option Nat)
          (ras oOk rsk : Bool) (evs : List Ev),
          (download c f0 sr ras oOk rsk evs).2 ≠ DLRes.exc Err.fuelOut) :=
  ⟨by decide, c2_retry_bound [1, 2, 3] 1 (by decide) (by decide)⟩

/-- C4 counterexample: a first call that resumed target [1,2,3] completes
the file but leaves Range: bytes=1- in the session; the immediate second
call for the same target then sees a declared length of 2, misses the
already-complete branch (alreadyBranch = false) and returns 0 instead of
the already-complete result. -/
theorem c4_idempotence_counterexample :
    (download [1, 2, 3] (some [1]) none false true true [Ev.ok]).2 = DLRes.ret 1 ∧
      (download [1, 2, 3] (some [1]) none false true true [Ev.ok]).1.file =
        some [1, 2, 3] ∧
      (download [1, 2, 3]
          (download [1, 2, 3] (some [1]) none false true true [Ev.ok]).1.file
          (download [1, 2, 3] (some [1]) none false true true [Ev.ok]).1.sessRange
          false true true []).1.alreadyBranch = false ∧
      (download [1, 2, 3]
          (download [1, 2, 3] (some [1]) none false true true [Ev.ok]).1.file
          (download [1, 2, 3] (some [1]) none false true true [Ev.ok]).1.sessRange
          false true true []).2 = DLRes.ret 0 := by
  decide

/-- C4 (amended): when the session carries no stale Range entry, a call
for a target whose destination file already has the full declared size
closes the open connection without reading any body byte and returns
success (1) through the already-complete branch of lines 157-162.  (The
return value 1 is shared with a freshly completed transfer: see C5.) -/
theorem c4_idempotent (content f : List Nat) (ras rsk : Bool) (evs : List Ev)
    (hlen : f.length = content.length) :
    (download content (some f) none ras true rsk evs).2 = DLRes.ret 1 ∧
      (download content (some f) none ras true rsk evs).1.alreadyBranch = true ∧
      (download content (some f) none ras true rsk evs).1.closedNoBody = true ∧
      (download content (some f) none ras true rsk evs).1.bodyBytesRead = 0 := by
  have heq : f.length =
      (applyRange (if ras = true then none else (none : Option Nat)) content).length := by
    cases ras <;> simpa [applyRange] using hlen
  rw [download_already_eq content f none ras rsk evs heq]
  simp

/-- C4 witness at content [7,8] with the file already complete. -/
theorem c4_idempotent_witness :
    ([7, 8] : List Nat).length = ([7, 8] : List Nat).length ∧
      ((download [7, 8] (some [7, 8]) none false true true []).2 = DLRes.ret 1 ∧
        (download [7, 8] (some [7, 8]) none false true true []).1.alreadyBranch = true ∧
        (download [7, 8] (some [7, 8]) none false true true []).1.closedNoBody = true ∧
        (download [7, 8] (some [7, 8]) none false true true []).1.bodyBytesRead = 0) :=
  ⟨rfl, c4_idempotent [7, 8] [7, 8] false true [] rfl⟩

/-- C5 counterexample: a fresh full download ([9] streamed from scratch,
one body byte read) and an already-satisfied call (file pre-complete,
zero body bytes read) return the same value, so the caller cannot tell a
freshly completed transfer from an already-satisfied one: the result is
not three-valued. -/
theorem c5_result_counterexample :
    (download [9] none none false true true [Ev.ok]).1.alreadyBranch = false ∧
      (download [9] none none false true true [Ev.ok]).1.bodyBytesRead = 1 ∧
      (download [9] (some [9]) none false true true []).1.alreadyBranch = true ∧
      (download [9] (some [9]) none false true true []).1.bodyBytesRead = 0 ∧
      (download [9] none none false true true [Ev.ok]).2 =
        (download [9] (some [9]) none false true true []).2 := by
  decide

/-- C5 (amended): every download call either returns one of the two ints
0 (Failed) and 1 (success, covering both Complete and AlreadyComplete
indistinguishably) or lets a Python exception escape (FileNotFoundError
from a size probe on a never-created file, or a requests error from the
unprotected reconnection in the except-handler). -/
theorem c5_result_values (content : List Nat) (file0 : Option (List Nat))
    (sr : Option Nat) (ras oOk rsk : Bool) (evs : List Ev) :
    (download content file0 sr ras oOk rsk evs).2 = DLRes.ret 0 ∨
      (download content file0 sr ras oOk rsk evs).2 = DLRes.ret 1 ∨
      (download content file0 sr ras oOk rsk evs).2 = DLRes.exc Err.netError ∨
      (download content file0 sr ras oOk rsk evs).2 = DLRes.exc Err.fileNotFound := by
  by_cases ho : oOk = true
  · subst ho
    cases file0 with
    | none =>
      rw [download_nofile_eq content sr ras rsk evs]
      rcases loop_res_cases content 12 evs
          (nofileSt content (if ras = true then none else sr)) with h | h | h | h | h
      · exact Or.inl h
      · exact Or.inr (Or.inl h)
      · exact Or.inr (Or.inr (Or.inl h))
      · exact Or.inr (Or.inr (Or.inr h))
      · exact absurd h (loop_no_fuelOut content 12 evs _ (by norm_num [mSt, nofileSt]))
    | some f =>
      by_cases heq : f.length =
          (applyRange (if ras = true then none else sr) content).length
      · rw [download_already_eq content f sr ras rsk evs heq]
        exact Or.inr (Or.inl rfl)
      · by_cases hrk : rsk = true
        · subst hrk
          rw [download_resume_eq content f sr ras evs heq]
          rcases loop_res_cases content 12 evs
              (resumeSt content f (if ras = true then none else sr)) with h | h | h | h | h
          · exact Or.inl h
          · exact Or.inr (Or.inl h)
          · exact Or.inr (Or.inr (Or.inl h))
          · exact Or.inr (Or.inr (Or.inr h))
          · exact absurd h (loop_no_fuelOut content 12 evs _ (by norm_num [mSt, resumeSt]))
        · have hr2 : rsk = false := by simpa using hrk
          subst hr2
          rw [download_resumeFail_eq content f sr ras evs heq]
          exact Or.inl rfl
  · have ho2 : oOk = false := by simpa using ho
    subst ho2
    rw [download_openFail_eq content file0 sr ras rsk evs]
    exact Or.inl rfl

/-- C7 counterexample: after a first call leaves Range: bytes=1- in the
session, a second call for a 4-byte target reads a declared length
(expectedSize) of 3, and a mid-stream error followed by a successful
retry appends past it: the on-disk size reaches 4 > 3.  The size
invariant does not hold of every call. -/
theorem c7_size_counterexample :
    (download [9, 9] (some [9]) none false true true [Ev.ok]).1.sessRange = some 1 ∧
      (download [1, 2, 3, 4] none
          (download [9, 9] (some [9]) none false true true [Ev.ok]).1.sessRange
          false true true [Ev.err 1 true, Ev.ok]).1.dlSize = 3 ∧
      (download [1, 2, 3, 4] none
          (download [9, 9] (some [9]) none false true true [Ev.ok]).1.sessRange
          false true true [Ev.err 1 true, Ev.ok]).1.maxSize = 4 ∧
      (download [1, 2, 3, 4] none
          (download [9, 9] (some [9]) none false true true [Ev.ok]).1.sessRange
          false true true [Ev.err 1 true, Ev.ok]).1.dlSize <
        (download [1, 2, 3, 4] none
          (download [9, 9] (some [9]) none false true true [Ev.ok]).1.sessRange
          false true true [Ev.err 1 true, Ev.ok]).1.maxSize := by
  decide

/-- C7 (amended): when the session carries no stale Range entry at the
start of the call and any pre-existing destination file is no larger than
the content, the on-disk size never exceeds the declared expectedSize at
any point of the call (maxSize is the high-water mark), and every write
is an append: the final file extends the initial one; the engine never
truncates or deletes it. -/
theorem c7_size_invariant (content : List Nat) (file0 : Option (List Nat))
    (ras oOk rsk : Bool) (evs : List Ev)
    (hfs : fileSize file0 ≤ content.length) :
    (download content file0 none ras oOk rsk evs).1.maxSize ≤
        (download content file0 none ras oOk rsk evs).1.dlSize ∧
      ∃ t, (download content file0 none ras oOk rsk evs).1.file.getD [] =
          file0.getD [] ++ t := by
  have hirN : applyRange (if ras = true then none else (none : Option Nat)) content
      = content := by
    cases ras <;> simp [applyRange]
  by_cases ho : oOk = true
  · subst ho
    cases file0 with
    | none =>
      rw [download_nofile_eq content none ras rsk evs]
      have hInv : SizeInv content (nofileSt content
          (if ras = true then none else none)) := by
        refine ⟨by simp [nofileSt, hirN, applyRange], by simp [nofileSt, fileSize], ?_,
          by simp [nofileSt]⟩
        intro _
        simp [nofileSt, fileSize, hirN, applyRange]
      have hsb := loop_sizeBound content 12 evs _ hInv
      have hdl := loop_dlSize content 12 evs
        (nofileSt content (if ras = true then none else none))
      constructor
      · rw [hdl]
        have hd2 : (nofileSt content (if ras = true then none else none)).dlSize
            = content.length := by simp [nofileSt, hirN, applyRange]
        rw [hd2]
        exact hsb.2.2
      · obtain ⟨t, ht⟩ := loop_prefix content 12 evs
          (nofileSt content (if ras = true then none else none))
        exact ⟨t, by simpa [nofileSt] using ht⟩
    | some f =>
      have hf0 : f.length ≤ content.length := by simpa [fileSize] using hfs
      by_cases heq : f.length =
          (applyRange (if ras = true then none else none) content).length
      · rw [download_already_eq content f none ras rsk evs heq]
        exact ⟨by simpa using le_of_eq heq, [], by simp⟩
      · by_cases hrk : rsk = true
        · subst hrk
          rw [download_resume_eq content f none ras evs heq]
          have hInv : SizeInv content (resumeSt content f
              (if ras = true then none else none)) := by
            refine ⟨by simp [resumeSt, hirN, applyRange], by simp [resumeSt, fileSize, hf0], ?_,
              by simp [resumeSt, hf0]⟩
            intro _
            simp [resumeSt, fileSize, List.length_drop]
            omega
          have hsb := loop_sizeBound content 12 evs _ hInv
          have hdl := loop_dlSize content 12 evs
            (resumeSt content f (if ras = true then none else none))
          constructor
          · rw [hdl]
            have hd2 : (resumeSt content f (if ras = true then none else none)).dlSize
                = content.length := by simp [resumeSt, hirN, applyRange]
            rw [hd2]
            exact hsb.2.2
          · obtain ⟨t, ht⟩ := loop_prefix content 12 evs
              (resumeSt content f (if ras = true then none else none))
            exact ⟨t, by simpa [resumeSt] using ht⟩
        · have hr2 : rsk = false := by simpa using hrk
          subst hr2
          rw [download_resumeFail_eq content f none ras evs heq]
          exact ⟨by simpa [hirN, applyRange] using hf0, [], by simp⟩
  · have ho2 : oOk = false := by simpa using ho
    subst ho2
    rw [download_openFail_eq content file0 none ras rsk evs]
    exact ⟨by simpa [hirN, applyRange] using hfs, [], by simp⟩

/-- C7 witness: a fresh-session resumed call on [1,2] from a 1-byte
prefix keeps the size within the declared length and only appends. -/
theorem c7_size_invariant_witness :
    fileSize (some [1]) ≤ ([1, 2] : List Nat).length ∧
      ((download [1, 2] (some [1]) none false true true [Ev.ok]).1.maxSize ≤
          (download [1, 2] (some [1]) none false true true [Ev.ok]).1.dlSize ∧
        ∃ t, (download [1, 2] (some [1]) none false true true
            [Ev.ok]).1.file.getD [] = (some [1]).getD [] ++ t) :=
  ⟨by decide, c7_size_invariant [1, 2] (some [1]) false true true [Ev.ok] (by decide)⟩

/-- C8 counterexample: a mid-stream error on a resumed transfer followed
by a failing reconnection: the bare session.get at line 210 sits inside
the except-handler with no surrounding try, so the requests error escapes
the download call instead of being turned into the Failed result. -/
theorem c8_exhaustion_counterexample :
    (download [1, 2, 3] (some [1]) none false true true [Ev.err 0 false]).2 =
      DLRes.exc Err.netError := by
  decide

/-- C8 (amended): when the destination file exists at the start of the
call and every reconnection attempted by the except-handler succeeds,
download never raises: every outcome, including exhausting all retries,
is the returned int 0 or 1.  (When the file was never created, or a
reconnection inside the handler fails, an exception does escape: see the
counterexample.) -/
theorem c8_no_raise (content f : List Nat) (sr : Option Nat) (ras oOk rsk : Bool)
    (evs : List Ev) (hevs : ∀ e ∈ evs, evROk e = true) :
    (download content (some f) sr ras oOk rsk evs).2 = DLRes.ret 0 ∨
      (download content (some f) sr ras oOk rsk evs).2 = DLRes.ret 1 := by
  by_cases ho : oOk = true
  · subst ho
    by_cases heq : f.length =
        (applyRange (if ras = true then none else sr) content).length
    · rw [download_already_eq content f sr ras rsk evs heq]
      exact Or.inr rfl
    · by_cases hrk : rsk = true
      · subst hrk
        rw [download_resume_eq content f sr ras evs heq]
        exact loop_ret01 content 12 evs _ (by norm_num [mSt, resumeSt])
          (by simp [resumeSt]) hevs
      · have hr2 : rsk = false := by simpa using hrk
        subst hr2
        rw [download_resumeFail_eq content f sr ras evs heq]
        exact Or.inl rfl
  · have ho2 : oOk = false := by simpa using ho
    subst ho2
    rw [download_openFail_eq content (some f) sr ras rsk evs]
    exact Or.inl rfl

/-- C8 witness: five empty erroring attempts with reconnections that
succeed end in the returned value 0, with no exception. -/
theorem c8_no_raise_witness :
    (∀ e ∈ List.replicate 5 (Ev.err 0 true), evROk e = true) ∧
      ((download [1, 2] (some [1]) none false true true
          (List.replicate 5 (Ev.err 0 true))).2 = DLRes.ret 0 ∨
        (download [1, 2] (some [1]) none false true true
          (List.replicate 5 (Ev.err 0 true))).2 = DLRes.ret 1) :=
  ⟨by decide, c8_no_raise [1, 2] [1] none false true true
    (List.replicate 5 (Ev.err 0 true)) (by decide)⟩

/-- C10: the Range entry written into the shared session headers during a
resume or a retry is never removed by download: any call that issued a
resume request or at least one handler reconnection ends with a Range
entry still in the session; and concretely, after a first call resumes
target [5,6,7] from offset 1, the initial request of the next call (for
the different target [8,9], no renewal in between) is sent with the stale
offset 1. -/
theorem c10_range_persistence :
    (∀ (content : List Nat) (file0 : Option (List Nat)) (sr : Option Nat)
        (ras oOk rsk : Bool) (evs : List Ev),
        ((download content file0 sr ras oOk rsk evs).1.resumeRange ≠ none ∨
          (download content file0 sr ras oOk rsk evs).1.retryRanges ≠ []) →
        (download content file0 sr ras oOk rsk evs).1.sessRange ≠ none) ∧
      ((download [5, 6, 7] (some [5]) none false true true [Ev.ok]).1.sessRange =
          some 1 ∧
        (download [8, 9] none
            (download [5, 6, 7] (some [5]) none false true true [Ev.ok]).1.sessRange
            false true true [Ev.ok]).1.initRange = some 1) := by
  constructor
  · intro content file0 sr ras oOk rsk evs hres
    by_cases ho : oOk = true
    · subst ho
      cases file0 with
      | none =>
        rw [download_nofile_eq content sr ras rsk evs] at hres ⊢
        rcases hres with h | h
        · rw [loop_resumeRange] at h
          simp [nofileSt] at h
        · exact loop_retrySess content 12 evs _ (by simp [nofileSt]) h
      | some f =>
        by_cases heq : f.length =
            (applyRange (if ras = true then none else sr) content).length
        · rw [download_already_eq content f sr ras rsk evs heq] at hres
          rcases hres with h | h <;> simp at h
        · by_cases hrk : rsk = true
          · subst hrk
            rw [download_resume_eq content f sr ras evs heq]
            exact loop_sessSome content 12 evs _ (by simp [resumeSt])
          · have hr2 : rsk = false := by simpa using hrk
            subst hr2
            rw [download_resumeFail_eq content f sr ras evs heq]
            simp
    · have ho2 : oOk = false := by simpa using ho
      subst ho2
      rw [download_openFail_eq content file0 sr ras rsk evs] at hres
      rcases hres with h | h <;> simp at h
  · constructor <;> decide

/-- C10 witness: a call that resumed ends with the Range entry still in
the session headers. -/
theorem c10_range_persistence_witness :
    (download [5, 6, 7] (some [5]) none false true true [Ev.ok]).1.sessRange ≠
      none :=
  c10_range_persistence.1 [5, 6, 7] (some [5]) none false true true [Ev.ok]
    (Or.inl (by decide))

end SentinelDL
